import Mathlib

/-!
Verification of the financial calculation engine of the finance-dashboard
repository (`src/lib/calculations/finance.ts`), against its natural-language
specification.

Numbers are modelled as exact rationals (`ℚ`).  JavaScript's
`Math.round(x * 100) / 100` is modelled by `round2` below: Mathlib's `round`
rounds halves toward `+∞`, exactly like `Math.round`.  JavaScript division by
zero produces `NaN`; Lean's total field division returns `0` instead.  Every
theorem whose meaning depends on a division notes which denominators are
nonzero under its hypotheses, so the two semantics agree there; the zero-rate
theorems, where the source really does divide by zero, document the mismatch
explicitly in their statements' comments.

`Math.log` is transcendental, so the one quantity computed with it
(`reducedTenure` in `calculatePrepaymentImpact`) is embedded over `ℝ` via
`Real.log` and is the only noncomputable part of the model.
-/

namespace FinanceApp

/-- `round2 x` models the source's ubiquitous `Math.round(x * 100) / 100`
(round to 2 decimal places, halves toward `+∞`). -/
def round2 (x : ℚ) : ℚ := (round (x * 100) : ℚ) / 100

/-- A rational is representable with (at most) 2 decimal places: an integer
number of cents. -/
def hasTwoDecimals (x : ℚ) : Prop := ∃ k : ℤ, x * 100 = (k : ℚ)

/-- Embedding of `calculateEMI` (finance.ts lines 13-28).
`emi = P * r * (1+r)^n / ((1+r)^n - 1)` with `r = rate/100/12`,
rounded to 2 decimals.  No zero-rate special case exists in the source. -/
def calculateEMI (principal interestRate : ℚ) (tenureMonths : ℕ) : ℚ :=
  let monthlyRate := interestRate / 100 / 12
  let emi := principal * monthlyRate * (1 + monthlyRate) ^ tenureMonths /
    ((1 + monthlyRate) ^ tenureMonths - 1)
  round2 emi

/-- One row of the amortization schedule (the object literal pushed by
`generateAmortizationSchedule`). -/
structure ScheduleRow where
  month : ℕ
  emi : ℚ
  principalPayment : ℚ
  interestPayment : ℚ
  remainingPrincipal : ℚ
deriving DecidableEq, Repr

/-- The `for (let month = 1; month <= tenureMonths; month++)` loop of
`generateAmortizationSchedule` (finance.ts lines 52-79), carrying the current
month, the number of iterations still to run (`remaining = n - month + 1`, so
`month === tenureMonths` is exactly `remaining = 1`), and the unrounded
remaining balance.  The final month forces `principalPayment = bal` and
reports `remainingPrincipal = 0`; every earlier month uses the exact EMI and
carries the unrounded balance forward. -/
def amortLoop (exactEmi monthlyRate : ℚ) : ℕ → ℕ → ℚ → List ScheduleRow
  | _, 0, _ => []
  | month, 1, bal =>
      let interestPayment := bal * monthlyRate
      let principalPayment := bal
      [{ month := month,
         emi := round2 (interestPayment + principalPayment),
         principalPayment := round2 principalPayment,
         interestPayment := round2 interestPayment,
         remainingPrincipal := 0 }]
  | month, remaining + 2, bal =>
      let interestPayment := bal * monthlyRate
      let principalPayment := exactEmi - interestPayment
      { month := month,
        emi := round2 exactEmi,
        principalPayment := round2 principalPayment,
        interestPayment := round2 interestPayment,
        remainingPrincipal := round2 (bal - principalPayment) } ::
      amortLoop exactEmi monthlyRate (month + 1) (remaining + 1) (bal - principalPayment)

/-- Embedding of `generateAmortizationSchedule` (finance.ts lines 38-82). -/
def generateAmortizationSchedule (principal interestRate : ℚ)
    (tenureMonths : ℕ) : List ScheduleRow :=
  let monthlyRate := interestRate / 100 / 12
  let exactEmi := principal * monthlyRate * (1 + monthlyRate) ^ tenureMonths /
    ((1 + monthlyRate) ^ tenureMonths - 1)
  amortLoop exactEmi monthlyRate 1 tenureMonths principal

/-- Embedding of `calculateInvestmentGrowth` (finance.ts lines 93-111).
No zero-rate special case exists in the source: at `annualRate = 0` the
source divides `0/0` (JavaScript `NaN`; Lean's convention gives `0`). -/
def calculateInvestmentGrowth (initialAmount monthlyContribution annualRate : ℚ)
    (years : ℕ) : ℚ :=
  let monthlyRate := annualRate / 100 / 12
  let totalMonths := years * 12
  let initialGrowth := initialAmount * (1 + monthlyRate) ^ totalMonths
  let contributionGrowth := monthlyContribution *
    ((1 + monthlyRate) ^ totalMonths - 1) / monthlyRate
  round2 (initialGrowth + contributionGrowth)

/-- One point of the wealth projection (the object literal pushed by
`generateWealthProjection`). -/
structure WealthPoint where
  year : ℕ
  netWorth : ℚ
deriving DecidableEq, Repr

/-- The `for (let year = 0; year <= years; year++)` loop of
`generateWealthProjection` (finance.ts lines 131-139): records the rounded
current net worth, then applies growth and adds savings.  The counter is the
number of points still to record (`years + 1` at the top call). -/
def wealthLoop (growthRate yearlySavings : ℚ) (year : ℕ) (current : ℚ) :
    ℕ → List WealthPoint
  | 0 => []
  | remaining + 1 =>
      { year := year, netWorth := round2 current } ::
      wealthLoop growthRate yearlySavings (year + 1)
        (current * (1 + growthRate / 100) + yearlySavings) remaining

/-- Embedding of `generateWealthProjection` (finance.ts lines 122-142). -/
def generateWealthProjection (initialNetWorth yearlySavings growthRate : ℚ)
    (years : ℕ) : List WealthPoint :=
  wealthLoop growthRate yearlySavings 0 initialNetWorth (years + 1)

/-- The result record of `calculatePrepaymentImpact`. -/
structure PrepaymentImpact where
  originalEMI : ℚ
  originalTenure : ℕ
  reducedEMI : ℚ
  reducedTenure : ℤ
  interestSaved : ℚ
  tenureSaved : ℤ

/-- `Math.ceil(Math.log(originalEMI / (originalEMI - reducedPrincipal*monthlyRate))
/ Math.log(1 + monthlyRate))` — the reduced tenure of Option 1 in
`calculatePrepaymentImpact` (finance.ts lines 176-179), over `ℝ` since
`Math.log` is transcendental. -/
noncomputable def reducedTenureOf (originalEMI reducedPrincipal monthlyRate : ℚ) : ℤ :=
  ⌈Real.log ((originalEMI : ℝ) / ((originalEMI : ℝ) - (reducedPrincipal : ℝ) * (monthlyRate : ℝ))) /
    Real.log (1 + (monthlyRate : ℝ))⌉

/-- Embedding of `calculatePrepaymentImpact` (finance.ts lines 153-197).
Note: in the full-clearance branch `interestSaved` is returned without
rounding; in the partial branch it is rounded to 2 decimals. -/
noncomputable def calculatePrepaymentImpact (principal interestRate : ℚ)
    (tenureMonths : ℕ) (prepaymentAmount : ℚ) : PrepaymentImpact :=
  let originalEMI := calculateEMI principal interestRate tenureMonths
  let reducedPrincipal := principal - prepaymentAmount
  if reducedPrincipal ≤ 0 then
    { originalEMI := originalEMI,
      originalTenure := tenureMonths,
      reducedEMI := 0,
      reducedTenure := 0,
      interestSaved := principal * interestRate / 100 / 12 * tenureMonths - prepaymentAmount,
      tenureSaved := tenureMonths }
  else
    let monthlyRate := interestRate / 100 / 12
    let reducedTenure := reducedTenureOf originalEMI reducedPrincipal monthlyRate
    let reducedEMI := calculateEMI reducedPrincipal interestRate tenureMonths
    let originalTotalPayment := originalEMI * tenureMonths
    let reducedTotalPayment := reducedEMI * tenureMonths
    let interestSaved := originalTotalPayment - reducedTotalPayment - prepaymentAmount
    { originalEMI := originalEMI,
      originalTenure := tenureMonths,
      reducedEMI := reducedEMI,
      reducedTenure := reducedTenure,
      interestSaved := round2 interestSaved,
      tenureSaved := (tenureMonths : ℤ) - reducedTenure }

/-- Embedding of `calculateMonthlySavingsForGoal` (finance.ts lines 208-230).
No zero-rate special case exists in the source: at `annualRate = 0` the
source divides by `0/0` (JavaScript `NaN`; Lean's convention gives `0`). -/
def calculateMonthlySavingsForGoal (targetAmount currentAmount : ℚ)
    (yearsToGoal : ℕ) (annualRate : ℚ) : ℚ :=
  let monthlyRate := annualRate / 100 / 12
  let totalMonths := yearsToGoal * 12
  let futureValueOfCurrent := currentAmount * (1 + monthlyRate) ^ totalMonths
  let amountToSave := targetAmount - futureValueOfCurrent
  if amountToSave ≤ 0 then 0
  else
    let monthlySavings := amountToSave /
      (((1 + monthlyRate) ^ totalMonths - 1) / monthlyRate)
    round2 monthlySavings

/-! ### Helper lemmas about `round2` -/

lemma round2_mono {x y : ℚ} (h : x ≤ y) : round2 x ≤ round2 y := by
  unfold round2
  have h1 : round (x * 100) ≤ round (y * 100) := by
    rw [round_eq, round_eq]
    exact Int.floor_mono (by linarith)
  have h2 : ((round (x * 100) : ℤ) : ℚ) ≤ ((round (y * 100) : ℤ) : ℚ) := by
    exact_mod_cast h1
  linarith

lemma round2_lt {x y : ℚ} (h : x + 1 / 100 ≤ y) : round2 x < round2 y := by
  unfold round2
  have h1 : round (x * 100) + 1 ≤ round (y * 100) := by
    rw [← round_add_one]
    rw [round_eq, round_eq]
    exact Int.floor_mono (by linarith)
  have h2 : ((round (x * 100) : ℤ) : ℚ) + 1 ≤ ((round (y * 100) : ℤ) : ℚ) := by
    exact_mod_cast h1
  linarith

lemma hasTwoDecimals_round2 (x : ℚ) : hasTwoDecimals (round2 x) := by
  refine ⟨round (x * 100), ?_⟩
  unfold round2
  rw [div_mul_cancel₀ _ (by norm_num : (100 : ℚ) ≠ 0)]

lemma hasTwoDecimals_zero : hasTwoDecimals 0 := ⟨0, by norm_num⟩

/-! ### The unrounded balance carried by the amortization loop -/

/-- Balance carried by the loop after `k` non-final iterations, starting from
`b`: each iteration subtracts `principalPayment = E - bal * r`. -/
def balAfter (E r b : ℚ) : ℕ → ℚ
  | 0 => b
  | k + 1 => balAfter E r b k - (E - balAfter E r b k * r)

lemma balAfter_shift (E r b : ℚ) (k : ℕ) :
    balAfter E r (b - (E - b * r)) k = balAfter E r b (k + 1) := by
  induction k with
  | zero => rfl
  | succ k ih => simp only [balAfter, ih]

lemma amortLoop_length (E r : ℚ) :
    ∀ (rem month : ℕ) (b : ℚ), (amortLoop E r month rem b).length = rem := by
  intro rem
  induction rem with
  | zero => intro m b; rfl
  | succ j ih =>
      intro m b
      match j with
      | 0 => rfl
      | j + 1 => simp [amortLoop, ih]

lemma amortLoop_get? (E r : ℚ) :
    ∀ (rem month : ℕ) (b : ℚ) (k : ℕ), k < rem →
    (amortLoop E r month rem b).get? k =
      some (if k + 1 = rem then
        { month := month + k,
          emi := round2 (balAfter E r b k * r + balAfter E r b k),
          principalPayment := round2 (balAfter E r b k),
          interestPayment := round2 (balAfter E r b k * r),
          remainingPrincipal := 0 }
      else
        { month := month + k,
          emi := round2 E,
          principalPayment := round2 (E - balAfter E r b k * r),
          interestPayment := round2 (balAfter E r b k * r),
          remainingPrincipal := round2 (balAfter E r b k - (E - balAfter E r b k * r)) }) := by
  intro rem
  induction rem with
  | zero => intro m b k hk; omega
  | succ j ih =>
      intro m b k hk
      match j, k with
      | 0, 0 => simp [amortLoop, balAfter]
      | j + 1, 0 =>
          simp only [amortLoop, List.get?_cons_zero]
          have : (0 : ℕ) + 1 ≠ j + 2 := by omega
          simp [this, balAfter]
      | j + 1, k + 1 =>
          simp only [amortLoop, List.get?_cons_succ]
          rw [ih (m + 1) (b - (E - b * r)) k (by omega)]
          rw [balAfter_shift]
          have hmk : m + 1 + k = m + (k + 1) := by omega
          rw [hmk]
          by_cases hc : k + 1 = j + 1
          · rw [if_pos hc, if_pos (by omega)]
          · rw [if_neg hc, if_neg (by omega)]

lemma amortLoop_getLast?_remaining (E r : ℚ) :
    ∀ (rem month : ℕ) (b : ℚ), 1 ≤ rem →
    Option.map ScheduleRow.remainingPrincipal
      (amortLoop E r month rem b).getLast? = some 0 := by
  intro rem
  induction rem with
  | zero => intro m b h; omega
  | succ j ih =>
      intro m b _
      match j with
      | 0 => rfl
      | j + 1 =>
          have hcons : ∃ y t, amortLoop E r (m + 1) (j + 1) (b - (E - b * r)) = y :: t := by
            match j with
            | 0 => exact ⟨_, _, rfl⟩
            | j + 1 => exact ⟨_, _, rfl⟩
          obtain ⟨y, t, hyt⟩ := hcons
          have step : amortLoop E r m (j + 2) b =
              { month := m,
                emi := round2 E,
                principalPayment := round2 (E - b * r),
                interestPayment := round2 (b * r),
                remainingPrincipal := round2 (b - (E - b * r)) } ::
              amortLoop E r (m + 1) (j + 1) (b - (E - b * r)) := rfl
          rw [step, hyt, List.getLast?_cons_cons, ← hyt]
          exact ih (m + 1) (b - (E - b * r)) (by omega)

/-- Closed form of the carried balance when the loop is started at `P` with
the exact EMI of `(P, r, n)`:
`balAfter E r P k * ((1+r)^n - 1) = P * ((1+r)^n - (1+r)^k)`. -/
lemma balAfter_closed (P r : ℚ) (n : ℕ) (h1 : (1 + r) ^ n - 1 ≠ 0) (k : ℕ) :
    balAfter (P * r * (1 + r) ^ n / ((1 + r) ^ n - 1)) r P k * ((1 + r) ^ n - 1) =
      P * ((1 + r) ^ n - (1 + r) ^ k) := by
  induction k with
  | zero => simp only [balAfter, pow_zero]
  | succ k ih =>
      have hE : P * r * (1 + r) ^ n / ((1 + r) ^ n - 1) * ((1 + r) ^ n - 1) =
          P * r * (1 + r) ^ n := div_mul_cancel₀ _ h1
      simp only [balAfter]
      linear_combination (1 + r) * ih - hE

/-! ### Helper lemmas about the wealth projection loop -/

/-- The unrounded net worth carried by `generateWealthProjection`'s loop after
`k` applications of the recurrence `c ↦ c * (1 + g/100) + s`. -/
def netWorthAfter (growthRate yearlySavings c : ℚ) : ℕ → ℚ
  | 0 => c
  | k + 1 => netWorthAfter growthRate yearlySavings c k * (1 + growthRate / 100) + yearlySavings

lemma netWorthAfter_shift (g s c : ℚ) (k : ℕ) :
    netWorthAfter g s (c * (1 + g / 100) + s) k = netWorthAfter g s c (k + 1) := by
  induction k with
  | zero => rfl
  | succ k ih => simp only [netWorthAfter, ih]

lemma wealthLoop_length (g s : ℚ) :
    ∀ (rem year : ℕ) (c : ℚ), (wealthLoop g s year c rem).length = rem := by
  intro rem
  induction rem with
  | zero => intro y c; rfl
  | succ j ih => intro y c; simp [wealthLoop, ih]

lemma wealthLoop_get? (g s : ℚ) :
    ∀ (rem year : ℕ) (c : ℚ) (k : ℕ), k < rem →
    (wealthLoop g s year c rem).get? k =
      some { year := year + k, netWorth := round2 (netWorthAfter g s c k) } := by
  intro rem
  induction rem with
  | zero => intro y c k hk; omega
  | succ j ih =>
      intro y c k hk
      match k with
      | 0 => simp [wealthLoop, netWorthAfter]
      | k + 1 =>
          simp only [wealthLoop, List.get?_cons_succ]
          rw [ih (y + 1) (c * (1 + g / 100) + s) k (by omega)]
          rw [netWorthAfter_shift]
          have : y + 1 + k = y + (k + 1) := by omega
          rw [this]

lemma netWorthAfter_nonneg {g s c : ℚ} (hg : 0 ≤ g) (hs : 0 ≤ s) (hc : 0 ≤ c) :
    ∀ k, 0 ≤ netWorthAfter g s c k := by
  intro k
  induction k with
  | zero => exact hc
  | succ k ih =>
      have h1 : (0 : ℚ) ≤ 1 + g / 100 := by linarith
      have := mul_nonneg ih h1
      simp only [netWorthAfter]
      linarith

lemma netWorthAfter_step {g s c : ℚ} (hg : 0 ≤ g) (hs : 0 ≤ s) (hc : 0 ≤ c) (k : ℕ) :
    netWorthAfter g s c k + s ≤ netWorthAfter g s c (k + 1) := by
  have h1 := netWorthAfter_nonneg hg hs hc k
  have h2 : 0 ≤ netWorthAfter g s c k * (g / 100) := by positivity
  simp only [netWorthAfter]
  nlinarith

/-! ### Named views of the schedule's internal quantities -/

/-- The monthly decimal rate `interestRate / 100 / 12` used throughout the
source. -/
def monthlyRateOf (rate : ℚ) : ℚ := rate / 100 / 12

/-- The exact (unrounded) EMI computed once by
`generateAmortizationSchedule`. -/
def exactEmiOf (P rate : ℚ) (n : ℕ) : ℚ :=
  P * monthlyRateOf rate * (1 + monthlyRateOf rate) ^ n /
    ((1 + monthlyRateOf rate) ^ n - 1)

/-- The unrounded balance carried into month `k + 1` of the schedule. -/
def balanceAt (P rate : ℚ) (n k : ℕ) : ℚ :=
  balAfter (exactEmiOf P rate n) (monthlyRateOf rate) P k

lemma generateAmortizationSchedule_eq (P rate : ℚ) (n : ℕ) :
    generateAmortizationSchedule P rate n =
      amortLoop (exactEmiOf P rate n) (monthlyRateOf rate) 1 n P := rfl

lemma schedule_length (P rate : ℚ) (n : ℕ) :
    (generateAmortizationSchedule P rate n).length = n :=
  amortLoop_length _ _ n 1 P

/-- Every row of the schedule, in closed terms of the carried balance. -/
lemma schedule_row (P rate : ℚ) (n k : ℕ) (hk : k < n)
    (h : k < (generateAmortizationSchedule P rate n).length) :
    (generateAmortizationSchedule P rate n).get ⟨k, h⟩ =
      (if k + 1 = n then
        { month := 1 + k,
          emi := round2 (balanceAt P rate n k * monthlyRateOf rate + balanceAt P rate n k),
          principalPayment := round2 (balanceAt P rate n k),
          interestPayment := round2 (balanceAt P rate n k * monthlyRateOf rate),
          remainingPrincipal := 0 }
      else
        { month := 1 + k,
          emi := round2 (exactEmiOf P rate n),
          principalPayment :=
            round2 (exactEmiOf P rate n - balanceAt P rate n k * monthlyRateOf rate),
          interestPayment := round2 (balanceAt P rate n k * monthlyRateOf rate),
          remainingPrincipal := round2 (balanceAt P rate n k -
            (exactEmiOf P rate n - balanceAt P rate n k * monthlyRateOf rate)) }) := by
  have hg := amortLoop_get? (exactEmiOf P rate n) (monthlyRateOf rate) n 1 P k hk
  exact Option.some.inj ((List.get?_eq_get h).symm.trans hg)

lemma monthlyRate_pos {rate : ℚ} (hr : 0 < rate) : 0 < monthlyRateOf rate := by
  unfold monthlyRateOf; positivity

lemma pow_sub_one_pos {rate : ℚ} (hr : 0 < rate) {n : ℕ} (hn : 1 ≤ n) :
    0 < (1 + monthlyRateOf rate) ^ n - 1 := by
  have h1 : 1 < 1 + monthlyRateOf rate := by
    have := monthlyRate_pos hr; linarith
  have := one_lt_pow₀ h1 (by omega : n ≠ 0)
  linarith

lemma balanceAt_mul {P rate : ℚ} {n : ℕ} (hr : 0 < rate) (hn : 1 ≤ n) (k : ℕ) :
    balanceAt P rate n k * ((1 + monthlyRateOf rate) ^ n - 1) =
      P * ((1 + monthlyRateOf rate) ^ n - (1 + monthlyRateOf rate) ^ k) :=
  balAfter_closed P (monthlyRateOf rate) n (ne_of_gt (pow_sub_one_pos hr hn)) k

/-- The carried balance is weakly decreasing in the month index. -/
lemma balanceAt_antitone {P rate : ℚ} {n : ℕ} (hP : 0 < P) (hr : 0 < rate)
    (hn : 1 ≤ n) {j k : ℕ} (hjk : j ≤ k) :
    balanceAt P rate n k ≤ balanceAt P rate n j := by
  have hden := pow_sub_one_pos hr hn
  have h1 : 1 ≤ 1 + monthlyRateOf rate := by
    have := monthlyRate_pos hr; linarith
  have hpow : (1 + monthlyRateOf rate) ^ j ≤ (1 + monthlyRateOf rate) ^ k :=
    pow_le_pow_right₀ h1 hjk
  have hmul : balanceAt P rate n k * ((1 + monthlyRateOf rate) ^ n - 1) ≤
      balanceAt P rate n j * ((1 + monthlyRateOf rate) ^ n - 1) := by
    rw [balanceAt_mul hr hn j, balanceAt_mul hr hn k]
    nlinarith [hP.le]
  exact le_of_mul_le_mul_right hmul hden

/-! ### Claim theorems -/

/-- C1: for every principal > 0, annual rate percent > 0, and integer
tenureMonths ≥ 1, `generateAmortizationSchedule` returns exactly
`tenureMonths` rows, and the final row's remaining balance is exactly 0. -/
theorem c1_schedule_fully_amortizes (P rate : ℚ) (n : ℕ)
    (hP : 0 < P) (hr : 0 < rate) (hn : 1 ≤ n) :
    (generateAmortizationSchedule P rate n).length = n ∧
    Option.map ScheduleRow.remainingPrincipal
      (generateAmortizationSchedule P rate n).getLast? = some 0 :=
  ⟨amortLoop_length _ _ n 1 P, amortLoop_getLast?_remaining _ _ n 1 P hn⟩

theorem c1_schedule_fully_amortizes_witness :
    (0 : ℚ) < 1000 ∧ (0 : ℚ) < 12 ∧ 1 ≤ 2 ∧
    ((generateAmortizationSchedule 1000 12 2).length = 2 ∧
      Option.map ScheduleRow.remainingPrincipal
        (generateAmortizationSchedule 1000 12 2).getLast? = some 0) :=
  ⟨by norm_num, by norm_num, by norm_num,
    c1_schedule_fully_amortizes 1000 12 2 (by norm_num) (by norm_num) (by norm_num)⟩

/-- C2: the claim says `calculateEMI(P, 0, n) = P / n` (zero-rate special
case).  The source has no special case: at `interestRate = 0` it computes
`P * 0 * 1 / (1 - 1)`, a `0/0` that is `NaN` in JavaScript (and `0` under
Lean's total-division convention); either way it is not `P / n`.  This
contradicts the repository's own test, which expects
`calculateEMI(100000, 0, 12) ≈ 8333.33`. -/
theorem c2_zero_rate_emi_is_not_linear :
    calculateEMI 100000 0 12 = 0 ∧ calculateEMI 100000 0 12 ≠ 100000 / 12 := by
  constructor <;> norm_num [calculateEMI, round2, round_eq]

/-- C3: the claim says `calculateInvestmentGrowth` special-cases a zero rate
to `monthlyContribution * totalMonths`.  The source has no special case: at
`annualRate = 0` the annuity term is `contribution * 0 / 0`, `NaN` in
JavaScript (and `0` under Lean's total-division convention), so the
contribution stream is lost instead of being added linearly.  The spec's
§4.3 edge case mandates `1000 + 100 * 12 = 2200` here. -/
theorem c3_zero_rate_growth_is_not_linear :
    calculateInvestmentGrowth 1000 100 0 1 = 1000 ∧
    calculateInvestmentGrowth 1000 100 0 1 ≠ 1000 + 100 * 12 := by
  constructor <;> norm_num [calculateInvestmentGrowth, round2, round_eq]

/-- C4: the claim says `calculateMonthlySavingsForGoal` special-cases a zero
rate to `remaining / totalMonths`.  The source has no special case: at
`annualRate = 0` it divides by `(1 - 1) / 0`, `NaN` in JavaScript (and `0`
under Lean's total-division convention).  This contradicts the repository's
own test, which expects `calculateMonthlySavingsForGoal(60000, 0, 5, 0) ≈
1000`. -/
theorem c4_zero_rate_goal_is_not_linear :
    calculateMonthlySavingsForGoal 60000 0 5 0 = 0 ∧
    calculateMonthlySavingsForGoal 60000 0 5 0 ≠ (60000 - 0) / (5 * 12) := by
  constructor <;> norm_num [calculateMonthlySavingsForGoal, round2, round_eq]

/-- C5 counterexample: the claim says the year-0 point equals
`initialNetWorth` unchanged, with no rounding modification applied to it.
But the source rounds the year-0 value like every other point: for
`initialNetWorth = 0.005` the recorded year-0 net worth is `0.01 ≠ 0.005`. -/
theorem c5_counterexample :
    Option.map WealthPoint.netWorth (generateWealthProjection (1 / 200) 0 0 0).head? =
      some (1 / 100) ∧ (1 / 100 : ℚ) ≠ 1 / 200 := by
  constructor
  · norm_num [generateWealthProjection, wealthLoop, round2, round_eq]
  · norm_num

/-- C5 (amended): `generateWealthProjection` returns exactly `years + 1`
points, and the year-0 point equals `initialNetWorth` rounded to 2 decimal
places (hence equals `initialNetWorth` exactly whenever it is a whole number
of cents). -/
theorem c5_amended_projection_head (init save rate : ℚ) (years : ℕ) :
    (generateWealthProjection init save rate years).length = years + 1 ∧
    Option.map WealthPoint.netWorth
      (generateWealthProjection init save rate years).head? = some (round2 init) :=
  ⟨wealthLoop_length _ _ (years + 1) 0 init, rfl⟩

/-- C6 counterexample: the claim asserts strictly increasing projection
points for every `initialNetWorth` whenever savings > 0 and rate ≥ 0.
With a negative initial net worth and a positive rate the projection
decreases: at `(-1000, savings 1, rate 10%, 1 year)` the points are
`-1000` then `-1099`. -/
theorem c6_counterexample :
    generateWealthProjection (-1000) 1 10 1 =
      [{ year := 0, netWorth := -1000 }, { year := 1, netWorth := -1099 }] ∧
    ¬ ((-1000 : ℚ) < -1099) := by
  constructor
  · norm_num [generateWealthProjection, wealthLoop, round2, round_eq]
  · norm_num

/-- C10: with a zero-year horizon, `calculateInvestmentGrowth` returns the
initial amount rounded to 2 decimals, for every contribution and every
nonzero rate (`totalMonths = 0`, so `(1+r)^0 = 1` kills both the lump-sum
growth and the annuity term).  The `annualRate ≠ 0` hypothesis keeps the
denominator of the annuity term nonzero, matching the JavaScript
computation exactly (at rate 0 JavaScript would produce `NaN`). -/
theorem c10_zero_years_growth (init contrib rate : ℚ) (hr : rate ≠ 0) :
    calculateInvestmentGrowth init contrib rate 0 = round2 init := by
  simp [calculateInvestmentGrowth]

theorem c10_zero_years_growth_witness :
    (5 : ℚ) ≠ 0 ∧ calculateInvestmentGrowth (5555 / 100) 7 5 0 = 5555 / 100 :=
  ⟨by norm_num,
    (c10_zero_years_growth (5555 / 100) 7 5 (by norm_num)).trans
      (by norm_num [round2, round_eq])⟩

/-- C9 counterexample: the claim asserts the *reported* (rounded) interest
portions strictly decrease and principal portions strictly increase for every
schedule with rate > 0 and tenure ≥ 2.  At `(principal 1, rate 12%, 2
months)` the two rows report identical interest (`0.01`) and identical
principal (`0.50`): sub-cent differences vanish under 2-decimal rounding. -/
theorem c9_counterexample :
    (generateAmortizationSchedule 1 12 2).map ScheduleRow.interestPayment =
      [1 / 100, 1 / 100] ∧
    (generateAmortizationSchedule 1 12 2).map ScheduleRow.principalPayment =
      [1 / 2, 1 / 2] := by
  constructor <;>
    norm_num [generateAmortizationSchedule, amortLoop, round2, round_eq]

/-- C6 (amended): with a nonnegative initial net worth, savings of at least
one cent per year, and a nonnegative growth rate, each successive reported
projection point is strictly greater than the previous one.  (The original
claim fails both for negative initial net worth — growth amplifies the debt —
and for sub-cent savings, which vanish under rounding.) -/
theorem c6_amended_monotone (init save rate : ℚ) (years : ℕ)
    (hinit : 0 ≤ init) (hsave : 1 / 100 ≤ save) (hrate : 0 ≤ rate) (i : ℕ)
    (h1 : i < (generateWealthProjection init save rate years).length)
    (h2 : i + 1 < (generateWealthProjection init save rate years).length) :
    ((generateWealthProjection init save rate years).get ⟨i, h1⟩).netWorth <
      ((generateWealthProjection init save rate years).get ⟨i + 1, h2⟩).netWorth := by
  have hs0 : (0 : ℚ) ≤ save := by linarith
  have hlen : (generateWealthProjection init save rate years).length = years + 1 :=
    wealthLoop_length _ _ _ _ _
  have hi : i < years + 1 := hlen ▸ h1
  have hi1 : i + 1 < years + 1 := hlen ▸ h2
  have g1 := wealthLoop_get? rate save (years + 1) 0 init i hi
  have g2 := wealthLoop_get? rate save (years + 1) 0 init (i + 1) hi1
  have e1 : (generateWealthProjection init save rate years).get ⟨i, h1⟩ =
      { year := 0 + i, netWorth := round2 (netWorthAfter rate save init i) } :=
    Option.some.inj ((List.get?_eq_get h1).symm.trans g1)
  have e2 : (generateWealthProjection init save rate years).get ⟨i + 1, h2⟩ =
      { year := 0 + (i + 1), netWorth := round2 (netWorthAfter rate save init (i + 1)) } :=
    Option.some.inj ((List.get?_eq_get h2).symm.trans g2)
  rw [e1, e2]
  apply round2_lt
  have hstep := netWorthAfter_step hrate hs0 hinit i
  linarith

theorem c6_amended_monotone_witness :
    (0 : ℚ) ≤ 0 ∧ (1 : ℚ) / 100 ≤ 1 ∧ (0 : ℚ) ≤ 0 ∧
    ((generateWealthProjection 0 1 0 1).get
        ⟨0, by simp [generateWealthProjection, wealthLoop]⟩).netWorth <
      ((generateWealthProjection 0 1 0 1).get
        ⟨1, by simp [generateWealthProjection, wealthLoop]⟩).netWorth :=
  ⟨le_refl 0, by norm_num, le_refl 0,
    c6_amended_monotone 0 1 0 1 (le_refl 0) (by norm_num) (le_refl 0) 0 _ _⟩

/-- C9 (amended): for every schedule with principal > 0, rate > 0 and tenure
≥ 2, the reported interest portions are weakly decreasing and the reported
principal portions weakly increasing across consecutive periods.  (The
underlying exact portions are strictly monotone, but 2-decimal rounding can
make consecutive reported values equal, so the claimed strictness fails.) -/
theorem c9_amended_monotone (P rate : ℚ) (n : ℕ) (hP : 0 < P) (hr : 0 < rate)
    (hn : 2 ≤ n) (i : ℕ)
    (h1 : i < (generateAmortizationSchedule P rate n).length)
    (h2 : i + 1 < (generateAmortizationSchedule P rate n).length) :
    ((generateAmortizationSchedule P rate n).get ⟨i + 1, h2⟩).interestPayment ≤
      ((generateAmortizationSchedule P rate n).get ⟨i, h1⟩).interestPayment ∧
    ((generateAmortizationSchedule P rate n).get ⟨i, h1⟩).principalPayment ≤
      ((generateAmortizationSchedule P rate n).get ⟨i + 1, h2⟩).principalPayment := by
  have hn1 : 1 ≤ n := by omega
  have hi : i < n := schedule_length P rate n ▸ h1
  have hi1 : i + 1 < n := schedule_length P rate n ▸ h2
  have hmr := monthlyRate_pos hr
  have e1 := schedule_row P rate n i hi h1
  rw [if_neg (by omega : ¬ i + 1 = n)] at e1
  have e2 := schedule_row P rate n (i + 1) hi1 h2
  have hble : balanceAt P rate n (i + 1) ≤ balanceAt P rate n i :=
    balanceAt_antitone hP hr hn1 (by omega)
  have hint : balanceAt P rate n (i + 1) * monthlyRateOf rate ≤
      balanceAt P rate n i * monthlyRateOf rate :=
    mul_le_mul_of_nonneg_right hble hmr.le
  by_cases hfin : i + 1 + 1 = n
  · rw [if_pos hfin] at e2
    refine ⟨by rw [e1, e2]; exact round2_mono hint, ?_⟩
    rw [e1, e2]
    apply round2_mono
    have hden := pow_sub_one_pos hr hn1
    have hE : exactEmiOf P rate n * ((1 + monthlyRateOf rate) ^ n - 1) =
        P * monthlyRateOf rate * (1 + monthlyRateOf rate) ^ n :=
      div_mul_cancel₀ _ (ne_of_gt hden)
    have hbci := balanceAt_mul (P := P) hr hn1 i
    have hbci1 := balanceAt_mul (P := P) hr hn1 (i + 1)
    have key : (exactEmiOf P rate n - balanceAt P rate n i * monthlyRateOf rate) *
        ((1 + monthlyRateOf rate) ^ n - 1) ≤
        balanceAt P rate n (i + 1) * ((1 + monthlyRateOf rate) ^ n - 1) := by
      have lhs_eq : (exactEmiOf P rate n - balanceAt P rate n i * monthlyRateOf rate) *
          ((1 + monthlyRateOf rate) ^ n - 1) =
          P * monthlyRateOf rate * (1 + monthlyRateOf rate) ^ i := by
        linear_combination hE - monthlyRateOf rate * hbci
      rw [lhs_eq, hbci1]
      have hpowle : (1 + monthlyRateOf rate) ^ i ≤ (1 + monthlyRateOf rate) ^ (i + 1) :=
        pow_le_pow_right₀ (by linarith) (by omega)
      have s1 : P * monthlyRateOf rate * (1 + monthlyRateOf rate) ^ i ≤
          P * monthlyRateOf rate * (1 + monthlyRateOf rate) ^ (i + 1) :=
        mul_le_mul_of_nonneg_left hpowle (mul_nonneg hP.le hmr.le)
      have s2 : P * monthlyRateOf rate * (1 + monthlyRateOf rate) ^ (i + 1) =
          P * ((1 + monthlyRateOf rate) ^ n - (1 + monthlyRateOf rate) ^ (i + 1)) := by
        rw [← hfin, pow_succ]; ring
      linarith
    exact le_of_mul_le_mul_right key hden
  · rw [if_neg hfin] at e2
    exact ⟨by rw [e1, e2]; exact round2_mono hint,
      by rw [e1, e2]; exact round2_mono (by linarith)⟩

theorem c9_amended_monotone_witness :
    (0 : ℚ) < 1000 ∧ (0 : ℚ) < 12 ∧ 2 ≤ 2 ∧
    (((generateAmortizationSchedule 1000 12 2).get
        ⟨1, by rw [schedule_length]; norm_num⟩).interestPayment ≤
      ((generateAmortizationSchedule 1000 12 2).get
        ⟨0, by rw [schedule_length]; norm_num⟩).interestPayment ∧
     ((generateAmortizationSchedule 1000 12 2).get
        ⟨0, by rw [schedule_length]; norm_num⟩).principalPayment ≤
      ((generateAmortizationSchedule 1000 12 2).get
        ⟨1, by rw [schedule_length]; norm_num⟩).principalPayment) :=
  ⟨by norm_num, by norm_num, by norm_num,
    c9_amended_monotone 1000 12 2 (by norm_num) (by norm_num) (by norm_num) 0 _ _⟩

/-- C7 counterexample: the claim asserts `reducedEMI < originalEMI`,
`reducedTenure < remainingTenureMonths`, and `interestSaved > 0` for *every*
partial prepayment (`0 < prepay < principal`).  At `(principal 100, rate 12%,
1 month, prepay 0.001)` both EMIs round to the same cent value `101`, so
`reducedEMI < originalEMI` fails (and `interestSaved` is in fact `0`). -/
theorem c7_counterexample :
    ¬ ((calculatePrepaymentImpact 100 12 1 (1 / 1000)).reducedEMI <
        (calculatePrepaymentImpact 100 12 1 (1 / 1000)).originalEMI ∧
      (calculatePrepaymentImpact 100 12 1 (1 / 1000)).reducedTenure < (1 : ℤ) ∧
      0 < (calculatePrepaymentImpact 100 12 1 (1 / 1000)).interestSaved) := by
  have h1 : (calculatePrepaymentImpact 100 12 1 (1 / 1000)).reducedEMI = 101 := by
    simp only [calculatePrepaymentImpact]
    rw [if_neg (by norm_num : ¬((100 : ℚ) - 1 / 1000 ≤ 0))]
    norm_num [calculateEMI, round2, round_eq]
  have h2 : (calculatePrepaymentImpact 100 12 1 (1 / 1000)).originalEMI = 101 := by
    simp only [calculatePrepaymentImpact]
    rw [if_neg (by norm_num : ¬((100 : ℚ) - 1 / 1000 ≤ 0))]
    norm_num [calculateEMI, round2, round_eq]
  intro h
  rw [h1, h2] at h
  exact absurd h.1 (lt_irrefl 101)

/-- C7 (amended): for every valid partial prepayment whose exact EMI
reduction `prepay * r * (1+r)^n / ((1+r)^n - 1)` is at least one cent,
`reducedEMI < originalEMI`.  (Sub-cent EMI reductions can round to equal
EMIs, and the `reducedTenure` / `interestSaved` strict inequalities fail in
general, e.g. at the counterexample input.) -/
theorem c7_amended_reduced_emi (P rate : ℚ) (n : ℕ) (prepay : ℚ)
    (hP : 0 < P) (hr : 0 < rate) (hn : 1 ≤ n) (hpre : 0 < prepay) (hlt : prepay < P)
    (hcent : 1 / 100 ≤ prepay * monthlyRateOf rate * (1 + monthlyRateOf rate) ^ n /
      ((1 + monthlyRateOf rate) ^ n - 1)) :
    (calculatePrepaymentImpact P rate n prepay).reducedEMI <
      (calculatePrepaymentImpact P rate n prepay).originalEMI := by
  have hbranch : ¬ (P - prepay ≤ 0) := by linarith
  simp only [calculatePrepaymentImpact]
  rw [if_neg hbranch]
  show calculateEMI (P - prepay) rate n < calculateEMI P rate n
  simp only [calculateEMI]
  apply round2_lt
  have hsum : (P - prepay) * (rate / 100 / 12) * (1 + rate / 100 / 12) ^ n /
        ((1 + rate / 100 / 12) ^ n - 1) +
      prepay * (rate / 100 / 12) * (1 + rate / 100 / 12) ^ n /
        ((1 + rate / 100 / 12) ^ n - 1) =
      P * (rate / 100 / 12) * (1 + rate / 100 / 12) ^ n /
        ((1 + rate / 100 / 12) ^ n - 1) := by
    rw [div_add_div_same]
    congr 1
    ring
  have hcent2 : 1 / 100 ≤ prepay * (rate / 100 / 12) * (1 + rate / 100 / 12) ^ n /
      ((1 + rate / 100 / 12) ^ n - 1) := by
    simpa [monthlyRateOf] using hcent
  linarith

theorem c7_amended_reduced_emi_witness :
    (0 : ℚ) < 100 ∧ (0 : ℚ) < 12 ∧ 1 ≤ 1 ∧ (0 : ℚ) < 50 ∧ (50 : ℚ) < 100 ∧
    1 / 100 ≤ 50 * monthlyRateOf 12 * (1 + monthlyRateOf 12) ^ 1 /
      ((1 + monthlyRateOf 12) ^ 1 - 1) ∧
    (calculatePrepaymentImpact 100 12 1 50).reducedEMI <
      (calculatePrepaymentImpact 100 12 1 50).originalEMI :=
  ⟨by norm_num, by norm_num, by norm_num, by norm_num, by norm_num,
    by norm_num [monthlyRateOf],
    c7_amended_reduced_emi 100 12 1 50 (by norm_num) (by norm_num) (by norm_num)
      (by norm_num) (by norm_num) (by norm_num [monthlyRateOf])⟩

/-- C8 counterexample: the claim asserts every monetary output of
`calculatePrepaymentImpact` is rounded to 2 decimals in *both* branches.
In the full-clearance branch `interestSaved` is returned without rounding:
at `(principal 100, rate 1%, 1 month, prepay 100)` it is
`100 * 1/100/12 * 1 - 100 = 1/12 - 100`, not a whole number of cents. -/
theorem c8_counterexample :
    ¬ hasTwoDecimals (calculatePrepaymentImpact 100 1 1 100).interestSaved := by
  have hval : (calculatePrepaymentImpact 100 1 1 100).interestSaved = 1 / 12 - 100 := by
    simp only [calculatePrepaymentImpact]
    rw [if_pos (by norm_num : ((100 : ℚ) - 100 ≤ 0))]
    push_cast
    norm_num
  rw [hval]
  rintro ⟨k, hk⟩
  have h3 : (3 : ℚ) * k = -29975 := by linarith
  have h3' : (3 : ℤ) * k = -29975 := by exact_mod_cast h3
  omega

/-- C8 (amended): `originalEMI` and `reducedEMI` are rounded to 2 decimals in
both branches, and `interestSaved` is rounded in the partial-prepayment
branch; the full-clearance branch returns `interestSaved` unrounded. -/
theorem c8_amended_rounding (P rate : ℚ) (n : ℕ) (prepay : ℚ) :
    hasTwoDecimals (calculatePrepaymentImpact P rate n prepay).originalEMI ∧
    hasTwoDecimals (calculatePrepaymentImpact P rate n prepay).reducedEMI ∧
    (0 < P - prepay →
      hasTwoDecimals (calculatePrepaymentImpact P rate n prepay).interestSaved) := by
  by_cases hb : P - prepay ≤ 0
  · simp only [calculatePrepaymentImpact]
    rw [if_pos hb]
    refine ⟨hasTwoDecimals_round2 _, hasTwoDecimals_zero, fun hpos => absurd hb ?_⟩
    linarith
  · simp only [calculatePrepaymentImpact]
    rw [if_neg hb]
    exact ⟨hasTwoDecimals_round2 _, hasTwoDecimals_round2 _,
      fun _ => hasTwoDecimals_round2 _⟩

theorem c8_amended_rounding_witness :
    (0 : ℚ) < 100 - 50 ∧
    hasTwoDecimals (calculatePrepaymentImpact 100 12 2 50).interestSaved :=
  ⟨by norm_num, (c8_amended_rounding 100 12 2 50).2.2 (by norm_num)⟩

end FinanceApp
